import Mathlib

/-!
Shallow embedding of the MTN trade-server core (src/Server/server.py and
src/Server/db.py): the persisted data model, the token validator, the buy
settlement path, escrow claim, positional listing removal, and the
reconciliation sweep.  Timestamps are modelled as integers (seconds), Python
ints as Lean Int.  Each database table becomes a list of rows in retrieval
order; SQL UPDATE/DELETE become map/filter over those lists.
-/

namespace MTN

/-- TTL for tokens, in seconds: JWT_EXPIRATION_HOURS * 3600 with
JWT_EXPIRATION_HOURS = 24 (server.py line 72). -/
def JWT_EXPIRATION_SECONDS : Int := 24 * 3600

/-- Row of table for_sale_items (db.py ForSaleItem).  sellerSteamId = ""
models a NULL / empty value (falsy in Python). -/
structure ForSaleItem where
  id : Nat
  def_name : String
  quantity : Int
  price : Int
  player_name : String
  seller_steam_id : String
  quality : String
  listed_at : Int
deriving Repr, DecidableEq

/-- Row of table pending_sales (db.py PendingSale): the escrow ledger. -/
structure PendingSale where
  seller_steam_id : String
  buyer_name : String
  item : String
  quantity : Int
  price : Int
  total_silver : Int
  timestamp : Int
deriving Repr, DecidableEq

/-- One element of the purchased_items JSON list stored in a SaleHistory
row (server.py lines 375-383). -/
structure PurchasedItem where
  def_name : String
  quantity : Int
  price : Int
  player_name : String
  quality : String
  seller_steam_id : String
  seller_name : String
deriving Repr, DecidableEq

/-- Row of table sales_history (db.py SaleHistory), buyer-side fields. -/
structure SaleHistory where
  timestamp : Int
  buyer_steam_id : String
  buyer_name : String
  purchased_items : List PurchasedItem
  total_cost : Int
deriving Repr, DecidableEq

/-- The in-memory content of a JWT bearer token: the claims that
generate_jwt_token encodes, plus whether its signature verifies under the
server key.  The opaque token string is identified with this record. -/
structure JwtToken where
  steam_id : String
  player_name : String
  exp : Int
  sigValid : Bool
deriving Repr, DecidableEq

/-- Row of table active_tokens (db.py ActiveToken).  revoked is the 0/1
integer column. -/
structure ActiveToken where
  token : JwtToken
  steam_id : String
  player_name : String
  issued_at : Int
  expires_at : Int
  revoked : Int
deriving Repr, DecidableEq

/-- Row of table active_users (db.py ActiveUser). -/
structure ActiveUser where
  steam_id : String
  player_name : String
  last_seen : Int
deriving Repr, DecidableEq

/-- Row of table user_sessions (db.py UserSession). -/
structure UserSession where
  id : Nat
  steam_id : String
  player_name : String
  session_start : Int
  session_end : Option Int
  last_activity : Int
  is_active : Bool
  user_agent : Option String
deriving Repr, DecidableEq

/-- The whole persisted store, each table in retrieval order. -/
structure ServerState where
  for_sale_items : List ForSaleItem
  sales_history : List SaleHistory
  pending_sales : List PendingSale
  active_users : List ActiveUser
  active_tokens : List ActiveToken
  user_sessions : List UserSession
deriving Repr, DecidableEq

/-- The claims dictionary returned by jwt.decode. -/
structure JwtPayload where
  steam_id : String
  player_name : String
  exp : Int
deriving Repr, DecidableEq

inductive JwtError where
  | expiredSignature
  | invalidToken
deriving Repr, DecidableEq

/-- jwt.decode(token, JWT_SECRET_KEY, algorithms=[JWT_ALGORITHM]) at time
now: PyJWT verifies the signature first (failure raises InvalidTokenError),
then checks the embedded exp claim (raising ExpiredSignatureError when it
lies in the past). -/
def jwt_decode (t : JwtToken) (now : Int) : Except JwtError JwtPayload :=
  if !t.sigValid then .error .invalidToken
  else if t.exp < now then .error .expiredSignature
  else .ok ⟨t.steam_id, t.player_name, t.exp⟩

/-- verify_jwt_token (server.py lines 193-235).  Returns the new store
state, the payload on success, and the message string.  The database row
look-up and revocation test come first; jwt.decode runs only afterwards.
On success with a truthy steam_id the expires_at of the token row and the
last_seen of the user are updated and the returned payload carries the new
expiry. -/
def verify_jwt_token (s : ServerState) (token : JwtToken) (now : Int) :
    ServerState × Option JwtPayload × String :=
  match s.active_tokens.find? (fun r => decide (r.token = token)) with
  | none => (s, none, "Token has been revoked")
  | some db_token =>
    if db_token.revoked = 1 then (s, none, "Token has been revoked")
    else
      match jwt_decode token now with
      | .error .expiredSignature => (s, none, "Token has expired")
      | .error .invalidToken => (s, none, "Invalid token")
      | .ok payload =>
        if payload.steam_id ≠ "" then
          let new_expiration := now + JWT_EXPIRATION_SECONDS
          let s' : ServerState :=
            { s with
              active_tokens := s.active_tokens.map (fun r =>
                if r.token = token then { r with expires_at := new_expiration } else r),
              active_users := s.active_users.map (fun u =>
                if u.steam_id = payload.steam_id then { u with last_seen := now } else u) }
          (s', some { payload with exp := new_expiration }, "Valid")
        else (s, some payload, "Valid")

/-- The authenticated claims of the caller, as read from the JWT payload by the
request handlers (user.get fields). -/
structure UserClaims where
  steam_id : String
  player_name : String
deriving Repr, DecidableEq

/-- One line of a BuyRequest (server.py BuyItemRequest). -/
structure BuyItemRequest where
  def_name : String
  quantity : Int
  seller_name : String
deriving Repr, DecidableEq

/-- server.py BuyRequest. -/
structure BuyRequest where
  items : List BuyItemRequest
  client_silver : Int
deriving Repr, DecidableEq

inductive BuyError where
  | itemUnavailable
  | insufficientStock
  | insufficientFunds
deriving Repr, DecidableEq

/-- The matching-item search of handle_buy: the first element of
for_sale_items whose def_name and player_name equal the def_name and the
seller_name of the request line (matching_items[0], server.py lines 334-341). -/
def findListing (items : List ForSaleItem) (line : BuyItemRequest) : Option ForSaleItem :=
  items.find? (fun it => decide (it.def_name = line.def_name ∧ it.player_name = line.seller_name))

/-- The validation loop of handle_buy (server.py lines 328-348): walks the
lines in order over the snapshot read at entry, rejecting on a missing
listing or on quantity > available, and accumulating total cost. -/
def validateLoop (items : List ForSaleItem) (acc : Int) :
    List BuyItemRequest → Except BuyError Int
  | [] => .ok acc
  | line :: rest =>
    match findListing items line with
    | none => .error .itemUnavailable
    | some item =>
      if item.quantity < line.quantity then .error .insufficientStock
      else validateLoop items (acc + item.price * line.quantity) rest

/-- Replace the first element satisfying p by its image under f, leaving
the rest of the list unchanged (the in-place mutation of the ORM object
matching_items[0] inside the commit loop). -/
def mutateFirst (p : α → Bool) (f : α → α) : List α → List α
  | [] => []
  | x :: xs => if p x then f x :: xs else x :: mutateFirst p f xs

/-- The running state of the commit loop: the in-memory snapshot (ORM objects,
whose quantity mutations are visible to later lines while deleted objects
stay in the list), the ids marked deleted, the PendingSale rows added, the
purchased-item details, and the recomputed total cost. -/
structure CommitSt where
  snapshot : List ForSaleItem
  deletedIds : List Nat
  pendingNew : List PendingSale
  purchased : List PurchasedItem
  totalCost : Int
deriving Repr, DecidableEq

/-- One iteration of the commit loop of handle_buy (server.py lines
357-405): re-resolve the line against the in-memory snapshot, skip when
missing, delete the row when the request consumes the exact available
quantity and decrement it otherwise, record the purchased detail, and add a
PendingSale escrow row when the seller_steam_id of the listing is truthy. -/
def commitLine (buyerName : String) (now : Int) (st : CommitSt) (line : BuyItemRequest) :
    CommitSt :=
  match findListing st.snapshot line with
  | none => st
  | some item =>
    let available_quantity := item.quantity
    let item_cost := item.price * line.quantity
    let details : PurchasedItem :=
      { def_name := item.def_name, quantity := line.quantity, price := item.price,
        player_name := item.player_name, quality := item.quality,
        seller_steam_id := item.seller_steam_id, seller_name := item.player_name }
    let snapshot' :=
      if line.quantity = available_quantity then st.snapshot
      else
        mutateFirst
          (fun it => decide (it.def_name = line.def_name ∧ it.player_name = line.seller_name))
          (fun it => { it with quantity := it.quantity - line.quantity }) st.snapshot
    let deleted' :=
      if line.quantity = available_quantity then item.id :: st.deletedIds else st.deletedIds
    let pending' :=
      if item.seller_steam_id ≠ "" then
        st.pendingNew ++
          [{ seller_steam_id := item.seller_steam_id, buyer_name := buyerName,
             item := item.def_name, quantity := line.quantity, price := item.price,
             total_silver := item_cost, timestamp := now }]
      else st.pendingNew
    { snapshot := snapshot', deletedIds := deleted', pendingNew := pending',
      purchased := st.purchased ++ [details], totalCost := st.totalCost + item_cost }

/-- The whole commit loop of handle_buy, folded over the request lines from
the snapshot read at entry with nothing yet deleted, escrowed or charged. -/
def commitFold (user : UserClaims) (now : Int) (s : ServerState)
    (lines : List BuyItemRequest) : CommitSt :=
  lines.foldl (commitLine user.player_name now) ⟨s.for_sale_items, [], [], [], 0⟩

/-- handle_buy (server.py lines 316-426).  Validate phase first (any raise
leaves the store untouched, the session never commits); then the commit
loop over the same snapshot; finally the new store state: surviving
listings with their mutated quantities, the appended PendingSale rows, and
exactly one appended SaleHistory record carrying the commit-phase total. -/
def handle_buy (user : UserClaims) (now : Int) (s : ServerState) (data : BuyRequest) :
    ServerState × Except BuyError (List PurchasedItem × Int) :=
  match validateLoop s.for_sale_items 0 data.items with
  | .error e => (s, .error e)
  | .ok total_cost =>
    if data.client_silver < total_cost then (s, .error .insufficientFunds)
    else
      let stF := commitFold user now s data.items
      let sale_record : SaleHistory :=
        { timestamp := now, buyer_steam_id := user.steam_id,
          buyer_name := user.player_name, purchased_items := stF.purchased,
          total_cost := stF.totalCost }
      ({ s with
          for_sale_items := stF.snapshot.filter (fun it => !stF.deletedIds.contains it.id),
          pending_sales := s.pending_sales ++ stF.pendingNew,
          sales_history := s.sales_history ++ [sale_record] },
        .ok (stF.purchased, stF.totalCost))

/-- claim_sales (server.py lines 541-564): select the pending
sales; when there are none, succeed with (0, 0) and leave the store alone;
otherwise sum price * quantity, delete every selected row, and return the
total with the row count. -/
def claim_sales (s : ServerState) (steamId : String) : ServerState × Int × Nat :=
  if (s.pending_sales.filter (fun p => decide (p.seller_steam_id = steamId))).isEmpty then
    (s, 0, 0)
  else
    ({ s with pending_sales :=
        s.pending_sales.filter (fun p => !decide (p.seller_steam_id = steamId)) },
      ((s.pending_sales.filter (fun p => decide (p.seller_steam_id = steamId))).map
        (fun p => p.price * p.quantity)).sum,
      (s.pending_sales.filter (fun p => decide (p.seller_steam_id = steamId))).length)

inductive RemoveError where
  | invalidIndex
  | indexError
deriving Repr, DecidableEq

/-- Python list indexing xs[i] for a list of length n: nonnegative i must
be < n; negative i counts from the end; anything else raises IndexError. -/
def pyIdx (n : Nat) (i : Int) : Option Nat :=
  if 0 ≤ i then (if i < (n : Int) then some i.toNat else none)
  else (if (n : Int) + i < 0 then none else some ((n : Int) + i).toNat)

/-- Remove the n-th element satisfying p (0-based among the satisfying
elements), leaving everything else in place: the effect on the full table
of deleting the row my_items[n] selected from the filtered view of the seller. -/
def removeNthMatching (p : α → Bool) : Nat → List α → List α
  | _, [] => []
  | n, x :: xs =>
    if p x then (if n = 0 then xs else x :: removeNthMatching p (n - 1) xs)
    else x :: removeNthMatching p n xs

/-- remove_item (server.py lines 503-523): select the own
listings in retrieval order; an index ≥ their count raises "Invalid item
index"; otherwise my_items[index] is fetched with Python indexing (so a
negative index reaches from the end, and a negative index out of range
raises an uncaught IndexError) and that row is deleted. -/
def remove_item (s : ServerState) (userSteamId : String) (index : Int) :
    ServerState × Except RemoveError ForSaleItem :=
  let p := fun it : ForSaleItem => decide (it.seller_steam_id = userSteamId)
  let my_items := s.for_sale_items.filter p
  if (my_items.length : Int) ≤ index then (s, .error .invalidIndex)
  else
    match pyIdx my_items.length index with
    | none => (s, .error .indexError)
    | some j =>
      match my_items.get? j with
      | none => (s, .error .indexError)
      | some item =>
        ({ s with for_sale_items := removeNthMatching p j s.for_sale_items }, .ok item)

/-- One synchronous sweep pass: manual_cleanup (server.py lines 722-766),
whose body is the same logic as one iteration of the background task
cleanup_expired_tokens (lines 768-811).  Deletes ActiveToken rows already
expired, closes still-active sessions idle beyond two hours, and removes
ActiveUser rows idle beyond 24 hours together with all their tokens. -/
def manual_cleanup (s : ServerState) (current_time : Int) : ServerState :=
  let tokens1 := s.active_tokens.filter (fun t => !decide (t.expires_at < current_time))
  let inactive_session_threshold := current_time - 2 * 3600
  let sessions1 := s.user_sessions.map (fun ss =>
    if ss.last_activity < inactive_session_threshold ∧ ss.is_active = true then
      { ss with session_end := some current_time, is_active := false }
    else ss)
  let inactive_threshold := current_time - 24 * 3600
  let inactive_users := s.active_users.filter (fun u => decide (u.last_seen < inactive_threshold))
  let tokens2 := tokens1.filter (fun t => !inactive_users.any (fun u => decide (u.steam_id = t.steam_id)))
  let users2 := s.active_users.filter (fun u => !decide (u.last_seen < inactive_threshold))
  { s with active_tokens := tokens2, user_sessions := sessions1, active_users := users2 }

/-! Concrete example rows and states used by the closed theorems and
witnesses below. -/

/-- Example listing: Bob sells 5 Steel at 10 silver each. -/
def exItemA : ForSaleItem :=
  { id := 1, def_name := "Steel", quantity := 5, price := 10, player_name := "Bob",
    seller_steam_id := "B1", quality := "", listed_at := 0 }

/-- Example listing: Bob sells 4 Wood at 3 silver each. -/
def exItemB : ForSaleItem :=
  { id := 2, def_name := "Wood", quantity := 4, price := 3, player_name := "Bob",
    seller_steam_id := "B1", quality := "", listed_at := 1 }

/-- A store whose only content is the Steel listing. -/
def exMarket1 : ServerState :=
  { for_sale_items := [exItemA], sales_history := [], pending_sales := [],
    active_users := [], active_tokens := [], user_sessions := [] }

/-- A store with the Steel and the Wood listing, both owned by B1. -/
def exMarket2 : ServerState :=
  { for_sale_items := [exItemA, exItemB], sales_history := [], pending_sales := [],
    active_users := [], active_tokens := [], user_sessions := [] }

/-- The authenticated buyer of the example purchases. -/
def exBuyer : UserClaims := { steam_id := "A1", player_name := "Alice" }

/-- Example bearer token: signature valid under the server key, embedded
expiry 100. -/
def exToken : JwtToken :=
  { steam_id := "A1", player_name := "Alice", exp := 100, sigValid := true }

/-- Store row for exToken, not revoked, persisted expiry 100. -/
def exRowOk : ActiveToken :=
  { token := exToken, steam_id := "A1", player_name := "Alice",
    issued_at := 0, expires_at := 100, revoked := 0 }

/-- Store row for exToken marked revoked. -/
def exRowRevoked : ActiveToken := { exRowOk with revoked := 1 }

/-- Presence record of the example identity. -/
def exUserA : ActiveUser := { steam_id := "A1", player_name := "Alice", last_seen := 0 }

/-- A store holding the live row for exToken and the presence record. -/
def exStateTok : ServerState :=
  { for_sale_items := [], sales_history := [], pending_sales := [],
    active_users := [exUserA], active_tokens := [exRowOk], user_sessions := [] }

/-- A store holding only the revoked row for exToken. -/
def exStateRevoked : ServerState :=
  { for_sale_items := [], sales_history := [], pending_sales := [],
    active_users := [], active_tokens := [exRowRevoked], user_sessions := [] }

/-- A store holding only the live row for exToken (no presence record). -/
def exStateExp : ServerState :=
  { for_sale_items := [], sales_history := [], pending_sales := [],
    active_users := [], active_tokens := [exRowOk], user_sessions := [] }

/-- Pending escrow entry worth 20 silver (2 Steel at 10). -/
def exPend1 : PendingSale :=
  { seller_steam_id := "B1", buyer_name := "Alice", item := "Steel", quantity := 2,
    price := 10, total_silver := 20, timestamp := 0 }

/-- Pending escrow entry worth 15 silver (5 Wood at 3). -/
def exPend2 : PendingSale :=
  { seller_steam_id := "B1", buyer_name := "Carol", item := "Wood", quantity := 5,
    price := 3, total_silver := 15, timestamp := 1 }

/-- A store where seller B1 has the two pending entries worth 20 and 15. -/
def exStateEsc : ServerState :=
  { for_sale_items := [], sales_history := [], pending_sales := [exPend1, exPend2],
    active_users := [], active_tokens := [], user_sessions := [] }

/-- The same store once both entries are claimed. -/
def exStateEscAfter : ServerState := { exStateEsc with pending_sales := [] }

/-- A still-open presence session, idle since time 0. -/
def exSessIdle : UserSession :=
  { id := 1, steam_id := "A1", player_name := "Alice", session_start := 0,
    session_end := none, last_activity := 0, is_active := true, user_agent := none }

/-- A presence record last seen at time 0. -/
def exUserStale : ActiveUser := { steam_id := "C1", player_name := "Carl", last_seen := 0 }

/-- An unexpired token owned by the stale identity C1. -/
def exTokStale : ActiveToken :=
  { token := { steam_id := "C1", player_name := "Carl", exp := 1000000, sigValid := true },
    steam_id := "C1", player_name := "Carl", issued_at := 0, expires_at := 1000000,
    revoked := 0 }

/-- A store holding one already-expired token (exRowOk, expiry 100), one
live token owned by a stale identity, one stale presence record and one
idle open session, all swept at time 200000. -/
def exStateSweep : ServerState :=
  { for_sale_items := [], sales_history := [], pending_sales := [],
    active_users := [exUserStale], active_tokens := [exRowOk, exTokStale],
    user_sessions := [exSessIdle] }

/-- C1: the quantity-at-least-1 invariant fails on the code.  A single buy
batch with two lines of quantity 3 against the one qty-5 Steel listing
passes the Validate phase (each line is checked against the unmutated
snapshot), and in the Commit phase the second line sees the in-memory
quantity 2, takes the else branch and decrements it to -1: the purchase
succeeds, charges 60, and leaves the Listing record present with quantity
-1. -/
theorem handle_buy_same_listing_batch_negative :
    (handle_buy exBuyer 5 exMarket1
        { items := [⟨"Steel", 3, "Bob"⟩, ⟨"Steel", 3, "Bob"⟩], client_silver := 100 }).1.for_sale_items
      = [{ exItemA with quantity := -1 }] ∧
    (handle_buy exBuyer 5 exMarket1
        { items := [⟨"Steel", 3, "Bob"⟩, ⟨"Steel", 3, "Bob"⟩], client_silver := 100 }).2
      = .ok ([⟨"Steel", 3, 10, "Bob", "", "B1", "Bob"⟩, ⟨"Steel", 3, 10, "Bob", "", "B1", "Bob"⟩],
              60) := by
  constructor <;> rfl

/-- C10: buy never requires a positive line quantity.  A quantity-0 line on
the qty-5 Steel listing passes validation and commits, leaving the listing
unchanged and creating a zero-quantity, zero-proceeds escrow entry and a
history record of total cost 0; a quantity -2 line also commits, raising
the stored quantity from 5 to 7 and recording cost and escrow proceeds of
-20. -/
theorem handle_buy_accepts_nonpositive_quantities :
    (handle_buy exBuyer 5 exMarket1 { items := [⟨"Steel", 0, "Bob"⟩], client_silver := 0 })
      = ({ exMarket1 with
            for_sale_items := [exItemA],
            pending_sales := [⟨"B1", "Alice", "Steel", 0, 10, 0, 5⟩],
            sales_history := [⟨5, "A1", "Alice", [⟨"Steel", 0, 10, "Bob", "", "B1", "Bob"⟩], 0⟩] },
          .ok ([⟨"Steel", 0, 10, "Bob", "", "B1", "Bob"⟩], 0)) ∧
    (handle_buy exBuyer 5 exMarket1 { items := [⟨"Steel", -2, "Bob"⟩], client_silver := 0 })
      = ({ exMarket1 with
            for_sale_items := [{ exItemA with quantity := 7 }],
            pending_sales := [⟨"B1", "Alice", "Steel", -2, 10, -20, 5⟩],
            sales_history := [⟨5, "A1", "Alice", [⟨"Steel", -2, 10, "Bob", "", "B1", "Bob"⟩], -20⟩] },
          .ok ([⟨"Steel", -2, 10, "Bob", "", "B1", "Bob"⟩], -20)) := by
  constructor <;> rfl

/-- C3: a token whose persisted row is marked revoked is rejected by
verify_jwt_token for every token value and every time — in particular for a
token whose signature verifies and whose expiry lies in the future — and
the result never depends on the cryptographic content of the token, because
the persisted-row check precedes jwt.decode: the store is left unchanged
and the revoked message is returned. -/
theorem verify_revoked_always_rejected (s : ServerState) (token : JwtToken)
    (now : Int) (row : ActiveToken)
    (hfind : s.active_tokens.find? (fun r => decide (r.token = token)) = some row)
    (hrev : row.revoked = 1) :
    verify_jwt_token s token now = (s, none, "Token has been revoked") := by
  unfold verify_jwt_token
  rw [hfind]
  simp [hrev]

/-- Witness for C3 at a concrete input: exToken carries a valid signature
and expiry 100, strictly after the validation time 5, yet its revoked row
forces rejection. -/
theorem verify_revoked_always_rejected_witness :
    verify_jwt_token exStateRevoked exToken 5
      = (exStateRevoked, none, "Token has been revoked") :=
  verify_revoked_always_rejected exStateRevoked exToken 5 exRowRevoked (by rfl) (by rfl)

/-- Successful jwt.decode returns exactly the claims embedded in the
token. -/
theorem jwt_decode_ok (t : JwtToken) (now : Int) (payload : JwtPayload)
    (h : jwt_decode t now = .ok payload) :
    payload = ⟨t.steam_id, t.player_name, t.exp⟩ := by
  unfold jwt_decode at h
  split at h
  · exact Except.noConfusion h
  · split at h
    · exact Except.noConfusion h
    · exact (Except.ok.inj h).symm

/-- C4: sliding expiration.  First part: every successful validation of a
token carrying a nonempty steam_id returns the payload with expiry now +
TTL and updates the store so that the row of that token has expires_at =
now + TTL and the user of that identity has last_seen = now.  Second part:
a token whose persisted (most recently extended) expiry has passed never
validates again, provided the embedded expiry does not exceed the persisted
one (which holds for every issued token, since extensions only move the
persisted expiry forward from its minted value): the result carries no
payload, whichever rejection message applies. -/
theorem verify_sliding_expiration :
    (∀ (s : ServerState) (token : JwtToken) (now : Int) (s' : ServerState)
        (payload : JwtPayload) (msg : String),
        token.steam_id ≠ "" →
        verify_jwt_token s token now = (s', some payload, msg) →
        payload.exp = now + JWT_EXPIRATION_SECONDS ∧
        s' = { s with
          active_tokens := s.active_tokens.map (fun r =>
            if r.token = token then { r with expires_at := now + JWT_EXPIRATION_SECONDS }
            else r),
          active_users := s.active_users.map (fun u =>
            if u.steam_id = token.steam_id then { u with last_seen := now } else u) }) ∧
    (∀ (s : ServerState) (token : JwtToken) (now : Int) (row : ActiveToken),
        s.active_tokens.find? (fun r => decide (r.token = token)) = some row →
        token.exp ≤ row.expires_at →
        row.expires_at < now →
        verify_jwt_token s token now = (s, none, "Token has been revoked") ∨
        verify_jwt_token s token now = (s, none, "Token has expired") ∨
        verify_jwt_token s token now = (s, none, "Invalid token")) := by
  constructor
  · intro s token now s' payload msg hsid h
    unfold verify_jwt_token at h
    split at h
    · simp [Prod.ext_iff] at h
    · split at h
      · simp [Prod.ext_iff] at h
      · rename_i heq
        split at h
        · simp [Prod.ext_iff] at h
        · simp [Prod.ext_iff] at h
        · rename_i payload0 hdec
          have hpay0 : payload0 = ⟨token.steam_id, token.player_name, token.exp⟩ :=
            jwt_decode_ok token now payload0 hdec
          rw [hpay0] at h
          rw [if_pos hsid] at h
          rw [Prod.ext_iff, Prod.ext_iff] at h
          obtain ⟨h1, h2, h3⟩ := h
          have hp := Option.some.inj h2
          constructor
          · rw [← hp]
          · exact h1.symm
  · intro s token now row hfind hle hlt
    unfold verify_jwt_token
    rw [hfind]
    by_cases hrev : row.revoked = 1
    · left; simp [hrev]
    · have hexp : token.exp < now := lt_of_le_of_lt hle hlt
      by_cases hsig : token.sigValid
      · right; left; simp [hrev, hsig, hexp, jwt_decode]
      · right; right; simp [hrev, hsig, jwt_decode]

/-- Witness for C4 at concrete inputs: validating exToken at time 5 against
its live row yields the extended payload expiry 5 + TTL and the updated
store, and at time 200 (past the persisted expiry 100) the same token is
rejected with no payload. -/
theorem verify_sliding_expiration_witness :
    (({ steam_id := "A1", player_name := "Alice", exp := 86405 } : JwtPayload).exp
        = 5 + JWT_EXPIRATION_SECONDS ∧
      ({ exStateTok with
          active_tokens := [{ exRowOk with expires_at := 86405 }],
          active_users := [{ exUserA with last_seen := 5 }] } : ServerState)
        = { exStateTok with
            active_tokens := exStateTok.active_tokens.map (fun r =>
              if r.token = exToken then { r with expires_at := 5 + JWT_EXPIRATION_SECONDS }
              else r),
            active_users := exStateTok.active_users.map (fun u =>
              if u.steam_id = exToken.steam_id then { u with last_seen := 5 } else u) }) ∧
    (verify_jwt_token exStateExp exToken 200 = (exStateExp, none, "Token has been revoked") ∨
     verify_jwt_token exStateExp exToken 200 = (exStateExp, none, "Token has expired") ∨
     verify_jwt_token exStateExp exToken 200 = (exStateExp, none, "Invalid token")) :=
  ⟨verify_sliding_expiration.1 exStateTok exToken 5
      { exStateTok with
        active_tokens := [{ exRowOk with expires_at := 86405 }],
        active_users := [{ exUserA with last_seen := 5 }] }
      { steam_id := "A1", player_name := "Alice", exp := 86405 } "Valid"
      (by decide) (by rfl),
    verify_sliding_expiration.2 exStateExp exToken 200 exRowOk (by rfl) (by decide) (by decide)⟩

/-- C8 counterexample: a token with no row in the token store is rejected
with the very same message "Token has been revoked" that a token with a
revoked row receives — there is no distinct Unknown reason (server.py line
202 merges the two cases into one branch).  exMarket1 holds no token row
at all; exStateRevoked holds a revoked row for exToken. -/
theorem verify_unknown_not_distinct_from_revoked :
    verify_jwt_token exMarket1 exToken 5 = (exMarket1, none, "Token has been revoked") ∧
    verify_jwt_token exStateRevoked exToken 5
      = (exStateRevoked, none, "Token has been revoked") := by
  constructor <;> rfl

/-- C8 amended: every rejection of verify_jwt_token carries exactly one of
three distinct reasons — the revoked message (used both for tokens with no
store row and for tokens whose row is marked revoked), the expired message,
and the invalid-token (malformed) message — and a token with no store row
always gets the revoked message with the store unchanged. -/
theorem verify_reject_reasons :
    (∀ (s : ServerState) (token : JwtToken) (now : Int),
        (verify_jwt_token s token now).2.1 = none →
        (verify_jwt_token s token now).2.2 = "Token has been revoked" ∨
        (verify_jwt_token s token now).2.2 = "Token has expired" ∨
        (verify_jwt_token s token now).2.2 = "Invalid token") ∧
    (∀ (s : ServerState) (token : JwtToken) (now : Int),
        s.active_tokens.find? (fun r => decide (r.token = token)) = none →
        verify_jwt_token s token now = (s, none, "Token has been revoked")) := by
  constructor
  · intro s token now
    unfold verify_jwt_token
    split
    · intro _; left; rfl
    · split
      · intro _; left; rfl
      · split
        · intro _; right; left; rfl
        · intro _; right; right; rfl
        · rename_i payload0 hdec
          intro h
          by_cases hs : payload0.steam_id ≠ ""
          · rw [if_pos hs] at h; simp at h
          · rw [if_neg hs] at h; simp at h
  · intro s token now hfind
    unfold verify_jwt_token
    rw [hfind]

/-- Lists all of whose elements fail p are unchanged by filtering with the
negation of p. -/
theorem filter_not_eq_self_of_filter_eq_nil {α : Type} (p : α → Bool) (l : List α)
    (h : l.filter p = []) : l.filter (fun x => !p x) = l := by
  rw [List.filter_eq_self]
  intro a ha
  have hna := List.filter_eq_nil_iff.mp h a ha
  cases hpa : p a with
  | false => simp [hpa]
  | true => exact absurd hpa hna

/-- Filtering with p after filtering with its negation leaves nothing. -/
theorem filter_after_filter_not {α : Type} (p : α → Bool) (l : List α) :
    (l.filter (fun x => !p x)).filter p = [] := by
  rw [List.filter_eq_nil_iff]
  intro a ha
  have hnp := (List.mem_filter.mp ha).2
  simp only [Bool.not_eq_true'] at hnp
  simp [hnp]

/-- C6: claim_sales returns the sum of price times quantity over exactly
the rows of the given seller together with their count, removes exactly
those rows from the escrow ledger, succeeds with (0, 0) on a seller with no
pending rows (the state is then untouched), and an immediate second claim
always returns (0, 0); concretely, a seller with pending entries worth 20
and 15 gets (35, 2) and a second claim gets (0, 0). -/
theorem claim_sales_spec :
    (∀ (s : ServerState) (sid : String),
        (claim_sales s sid).2.1
          = ((s.pending_sales.filter (fun p => decide (p.seller_steam_id = sid))).map
              (fun p => p.price * p.quantity)).sum ∧
        (claim_sales s sid).2.2
          = (s.pending_sales.filter (fun p => decide (p.seller_steam_id = sid))).length ∧
        (claim_sales s sid).1.pending_sales
          = s.pending_sales.filter (fun p => !decide (p.seller_steam_id = sid)) ∧
        claim_sales (claim_sales s sid).1 sid = ((claim_sales s sid).1, 0, 0)) ∧
    claim_sales exStateEsc "B1" = (exStateEscAfter, 35, 2) ∧
    claim_sales exStateEscAfter "B1" = (exStateEscAfter, 0, 0) := by
  refine ⟨?_, by rfl, by rfl⟩
  intro s sid
  by_cases hemp :
      (s.pending_sales.filter (fun p => decide (p.seller_steam_id = sid))).isEmpty = true
  · have hnil : s.pending_sales.filter (fun p => decide (p.seller_steam_id = sid)) = [] :=
      List.isEmpty_iff.mp hemp
    have hres : claim_sales s sid = (s, 0, 0) := by
      unfold claim_sales
      rw [if_pos hemp]
    refine ⟨?_, ?_, ?_, ?_⟩
    · rw [hres, hnil]; rfl
    · rw [hres, hnil]; rfl
    · rw [hres, filter_not_eq_self_of_filter_eq_nil _ _ hnil]
    · rw [hres, hres]
  · have hres : claim_sales s sid =
        ({ s with pending_sales :=
            s.pending_sales.filter (fun p => !decide (p.seller_steam_id = sid)) },
          ((s.pending_sales.filter (fun p => decide (p.seller_steam_id = sid))).map
            (fun p => p.price * p.quantity)).sum,
          (s.pending_sales.filter (fun p => decide (p.seller_steam_id = sid))).length) := by
      unfold claim_sales
      rw [if_neg hemp]
    refine ⟨by rw [hres], by rw [hres], by rw [hres], ?_⟩
    rw [hres]
    have hnil2 : (s.pending_sales.filter (fun p => !decide (p.seller_steam_id = sid))).filter
        (fun p => decide (p.seller_steam_id = sid)) = [] :=
      filter_after_filter_not _ _
    unfold claim_sales
    rw [if_pos (by rw [hnil2]; rfl)]

/-- C7: after one synchronous sweep pass at current time now, provided
every inactive session of the pre-state already had its end stamp (true of
every reachable state, since sessions are opened active with no end and
only ever closed together with an end stamp): no surviving AuthToken row
has passed expiry; every surviving session idle beyond 2 hours is inactive
with its end stamp set; no surviving PresenceRecord is idle beyond 24
hours; and no token owned by a swept stale identity survives. -/
theorem manual_cleanup_spec (s : ServerState) (now : Int)
    (hsess : ∀ ss ∈ s.user_sessions, ss.is_active = false → ss.session_end ≠ none) :
    (∀ t ∈ (manual_cleanup s now).active_tokens, ¬ t.expires_at < now) ∧
    (∀ ss ∈ (manual_cleanup s now).user_sessions,
        ss.last_activity < now - 2 * 3600 → ss.is_active = false ∧ ss.session_end ≠ none) ∧
    (∀ u ∈ (manual_cleanup s now).active_users, ¬ u.last_seen < now - 24 * 3600) ∧
    (∀ u ∈ s.active_users, u.last_seen < now - 24 * 3600 →
        ∀ t ∈ (manual_cleanup s now).active_tokens, t.steam_id ≠ u.steam_id) := by
  refine ⟨?_, ?_, ?_, ?_⟩
  · intro t ht
    simp only [manual_cleanup, List.mem_filter] at ht
    have h2 := ht.1.2
    simp only [Bool.not_eq_true', decide_eq_false_iff_not] at h2
    exact h2
  · intro ss hss
    simp only [manual_cleanup, List.mem_map] at hss
    obtain ⟨ss0, h0, heq⟩ := hss
    by_cases hcond : ss0.last_activity < now - 2 * 3600 ∧ ss0.is_active = true
    · rw [if_pos hcond] at heq
      intro _
      rw [← heq]
      exact ⟨rfl, by simp⟩
    · rw [if_neg hcond] at heq
      subst heq
      intro hidle
      have hact : ss0.is_active = false := by
        cases hb : ss0.is_active
        · rfl
        · exact absurd ⟨hidle, hb⟩ hcond
      exact ⟨hact, hsess ss0 h0 hact⟩
  · intro u hu
    simp only [manual_cleanup, List.mem_filter] at hu
    have h2 := hu.2
    simp only [Bool.not_eq_true', decide_eq_false_iff_not] at h2
    exact h2
  · intro u hu hstale t ht
    simp only [manual_cleanup, List.mem_filter] at ht
    have hany := ht.2
    intro hEq
    have humem : u ∈ s.active_users.filter (fun v => decide (v.last_seen < now - 24 * 3600)) :=
      List.mem_filter.mpr ⟨hu, by simp only [decide_eq_true_eq]; exact hstale⟩
    have htrue : (s.active_users.filter
        (fun v => decide (v.last_seen < now - 24 * 3600))).any
          (fun v => decide (v.steam_id = t.steam_id)) = true :=
      List.any_eq_true.mpr ⟨u, humem, by simp [hEq]⟩
    rw [htrue] at hany
    exact absurd hany (by simp)

/-- Witness for C7 at a concrete input: sweeping exStateSweep at time
200000 removes the expired token, closes the idle session with an end
stamp, removes the stale presence record, and removes the unexpired token
owned by that stale identity. -/
theorem manual_cleanup_spec_witness :
    (∀ t ∈ (manual_cleanup exStateSweep 200000).active_tokens, ¬ t.expires_at < 200000) ∧
    (∀ ss ∈ (manual_cleanup exStateSweep 200000).user_sessions,
        ss.last_activity < 200000 - 2 * 3600 →
        ss.is_active = false ∧ ss.session_end ≠ none) ∧
    (∀ u ∈ (manual_cleanup exStateSweep 200000).active_users,
        ¬ u.last_seen < 200000 - 24 * 3600) ∧
    (∀ u ∈ exStateSweep.active_users, u.last_seen < 200000 - 24 * 3600 →
        ∀ t ∈ (manual_cleanup exStateSweep 200000).active_tokens,
          t.steam_id ≠ u.steam_id) :=
  manual_cleanup_spec exStateSweep 200000 (by decide)

/-- Membership after mutateFirst: each element either was already in the
list or is the image under f of an element of the list. -/
theorem mem_mutateFirst {α : Type} (p : α → Bool) (f : α → α) (l : List α) (x : α)
    (hx : x ∈ mutateFirst p f l) : x ∈ l ∨ ∃ y, y ∈ l ∧ x = f y := by
  induction l with
  | nil => simp [mutateFirst] at hx
  | cons a tl ih =>
    rw [mutateFirst] at hx
    by_cases hpa : p a
    · rw [if_pos hpa] at hx
      rcases List.mem_cons.mp hx with h | h
      · exact Or.inr ⟨a, List.mem_cons_self a tl, h⟩
      · exact Or.inl (List.mem_cons_of_mem a h)
    · rw [if_neg hpa] at hx
      rcases List.mem_cons.mp hx with h | h
      · exact Or.inl (by rw [h]; exact List.mem_cons_self a tl)
      · rcases ih h with h1 | ⟨y, hy, hxy⟩
        · exact Or.inl (List.mem_cons_of_mem a h1)
        · exact Or.inr ⟨y, List.mem_cons_of_mem a hy, hxy⟩

/-- One commit-loop step preserves the two invariants: every snapshot
element keeps a truthy seller_steam_id (mutation touches only quantity),
and the escrow proceeds created so far sum to the running total cost
(each processed line adds item_cost to both sides, the escrow row being
created exactly because the seller id is truthy). -/
theorem commitLine_inv (b : String) (now : Int) (st : CommitSt) (line : BuyItemRequest)
    (hs : ∀ it ∈ st.snapshot, it.seller_steam_id ≠ "")
    (hsum : (st.pendingNew.map (fun p => p.total_silver)).sum = st.totalCost) :
    (∀ it ∈ (commitLine b now st line).snapshot, it.seller_steam_id ≠ "") ∧
    ((commitLine b now st line).pendingNew.map (fun p => p.total_silver)).sum
      = (commitLine b now st line).totalCost := by
  unfold commitLine
  split
  · exact ⟨hs, hsum⟩
  · rename_i item hfind
    have hmem : item ∈ st.snapshot := by
      unfold findListing at hfind
      exact List.mem_of_find?_eq_some hfind
    have hitem : item.seller_steam_id ≠ "" := hs item hmem
    dsimp only
    constructor
    · intro it hit
      by_cases hq : line.quantity = item.quantity
      · rw [if_pos hq] at hit
        exact hs it hit
      · rw [if_neg hq] at hit
        rcases mem_mutateFirst _ _ _ _ hit with h1 | ⟨y, hy, hxy⟩
        · exact hs it h1
        · rw [hxy]
          exact hs y hy
    · rw [if_pos hitem, List.map_append, List.sum_append]
      simp [hsum]

/-- The commit fold keeps the proceeds-sum invariant from any starting
state whose snapshot has only truthy seller ids. -/
theorem commitFold_inv (b : String) (now : Int) (lines : List BuyItemRequest) :
    ∀ (st : CommitSt),
      (∀ it ∈ st.snapshot, it.seller_steam_id ≠ "") →
      (st.pendingNew.map (fun p => p.total_silver)).sum = st.totalCost →
      ((lines.foldl (commitLine b now) st).pendingNew.map (fun p => p.total_silver)).sum
        = (lines.foldl (commitLine b now) st).totalCost := by
  induction lines with
  | nil => intro st _ h2; simpa using h2
  | cons l rest ih =>
    intro st h1 h2
    rw [List.foldl_cons]
    exact ih _ (commitLine_inv b now st l h1 h2).1 (commitLine_inv b now st l h1 h2).2

/-- C2: for every buy that succeeds against a store all of whose listings
carry a truthy seller_steam_id (as every listing created through the sell
path does, since the authenticated seller identity is embedded in the JWT
at issuance), the purchase appends some batch of escrow entries and exactly
one history record, and the created escrow proceeds sum to the total cost
recorded in that history record. -/
theorem handle_buy_escrow_matches_history (user : UserClaims) (now : Int)
    (s : ServerState) (data : BuyRequest) (s' : ServerState)
    (result : List PurchasedItem × Int)
    (hsellers : ∀ it ∈ s.for_sale_items, it.seller_steam_id ≠ "")
    (h : handle_buy user now s data = (s', .ok result)) :
    ∃ (newEntries : List PendingSale) (rec : SaleHistory),
      s'.pending_sales = s.pending_sales ++ newEntries ∧
      s'.sales_history = s.sales_history ++ [rec] ∧
      (newEntries.map (fun p => p.total_silver)).sum = rec.total_cost := by
  unfold handle_buy at h
  split at h
  · simp [Prod.ext_iff] at h
  · split at h
    · simp [Prod.ext_iff] at h
    · rw [Prod.ext_iff] at h
      obtain ⟨h1, _⟩ := h
      dsimp only at h1
      refine ⟨(commitFold user now s data.items).pendingNew,
        { timestamp := now, buyer_steam_id := user.steam_id, buyer_name := user.player_name,
          purchased_items := (commitFold user now s data.items).purchased,
          total_cost := (commitFold user now s data.items).totalCost }, ?_, ?_, ?_⟩
      · rw [← h1]
      · rw [← h1]
      · exact commitFold_inv user.player_name now data.items
          ⟨s.for_sale_items, [], [], [], 0⟩ hsellers rfl

/-- Witness for C2 at a concrete input: Alice buys 2 Steel from Bob out of
the qty-5 listing; one escrow entry of proceeds 20 is created and the
history record carries total cost 20. -/
theorem handle_buy_escrow_matches_history_witness :
    ∃ (newEntries : List PendingSale) (rec : SaleHistory),
      ({ exMarket1 with
          for_sale_items := [{ exItemA with quantity := 3 }],
          pending_sales := [⟨"B1", "Alice", "Steel", 2, 10, 20, 5⟩],
          sales_history :=
            [⟨5, "A1", "Alice", [⟨"Steel", 2, 10, "Bob", "", "B1", "Bob"⟩], 20⟩] }
        : ServerState).pending_sales = exMarket1.pending_sales ++ newEntries ∧
      ({ exMarket1 with
          for_sale_items := [{ exItemA with quantity := 3 }],
          pending_sales := [⟨"B1", "Alice", "Steel", 2, 10, 20, 5⟩],
          sales_history :=
            [⟨5, "A1", "Alice", [⟨"Steel", 2, 10, "Bob", "", "B1", "Bob"⟩], 20⟩] }
        : ServerState).sales_history = exMarket1.sales_history ++ [rec] ∧
      (newEntries.map (fun p => p.total_silver)).sum = rec.total_cost :=
  handle_buy_escrow_matches_history exBuyer 5 exMarket1
    { items := [⟨"Steel", 2, "Bob"⟩], client_silver := 50 }
    { exMarket1 with
      for_sale_items := [{ exItemA with quantity := 3 }],
      pending_sales := [⟨"B1", "Alice", "Steel", 2, 10, 20, 5⟩],
      sales_history := [⟨5, "A1", "Alice", [⟨"Steel", 2, 10, "Bob", "", "B1", "Bob"⟩], 20⟩] }
    ([⟨"Steel", 2, 10, "Bob", "", "B1", "Bob"⟩], 20)
    (by decide) (by rfl)

/-- One-step unfolding of the validation loop on a nonempty batch. -/
theorem validateLoop_cons (items : List ForSaleItem) (acc : Int)
    (line : BuyItemRequest) (rest : List BuyItemRequest) :
    validateLoop items acc (line :: rest) =
      match findListing items line with
      | none => .error .itemUnavailable
      | some item =>
        if item.quantity < line.quantity then .error .insufficientStock
        else validateLoop items (acc + item.price * line.quantity) rest := rfl

/-- Soundness of a passing validation: every line resolved to a listing
with enough quantity. -/
theorem validateLoop_ok_sound (items : List ForSaleItem) :
    ∀ (lines : List BuyItemRequest) (acc total : Int),
      validateLoop items acc lines = .ok total →
      ∀ l ∈ lines, ∃ it, findListing items l = some it ∧ l.quantity ≤ it.quantity := by
  intro lines
  induction lines with
  | nil => intro acc total _ l hl; exact absurd hl (List.not_mem_nil l)
  | cons a tl ih =>
    intro acc total h l hl
    rw [validateLoop_cons] at h
    cases hfind : findListing items a with
    | none => rw [hfind] at h; exact Except.noConfusion h
    | some item =>
      rw [hfind] at h
      dsimp only at h
      by_cases hq : item.quantity < a.quantity
      · rw [if_pos hq] at h; exact Except.noConfusion h
      · rw [if_neg hq] at h
        rcases List.mem_cons.mp hl with rfl | hm
        · exact ⟨item, hfind, not_lt.mp hq⟩
        · exact ih _ _ h l hm

/-- A prefix of lines that all resolve with enough stock only moves the
accumulator: validation of the whole batch continues on the suffix. -/
theorem validateLoop_append_ok (items : List ForSaleItem) :
    ∀ (pre : List BuyItemRequest) (acc : Int) (rest : List BuyItemRequest),
      (∀ l ∈ pre, ∃ it, findListing items l = some it ∧ l.quantity ≤ it.quantity) →
      ∃ acc2, validateLoop items acc (pre ++ rest) = validateLoop items acc2 rest := by
  intro pre
  induction pre with
  | nil => intro acc rest _; exact ⟨acc, rfl⟩
  | cons a tl ih =>
    intro acc rest hfine
    obtain ⟨it, hit, hle⟩ := hfine a (List.mem_cons_self a tl)
    rw [List.cons_append, validateLoop_cons, hit]
    dsimp only
    rw [if_neg (not_lt.mpr hle)]
    exact ih _ rest (fun l hl => hfine l (List.mem_cons_of_mem a hl))

/-- A validation-phase error is returned as the whole result of handle_buy,
with the store untouched. -/
theorem handle_buy_of_validate_error (user : UserClaims) (now : Int) (s : ServerState)
    (data : BuyRequest) (e : BuyError)
    (hv : validateLoop s.for_sale_items 0 data.items = .error e) :
    handle_buy user now s data = (s, .error e) := by
  unfold handle_buy
  rw [hv]

/-- C5: the Validate phase of buy.  Any rejection leaves the store exactly
as it was; a line whose listing is missing forces rejection of the whole
batch, as does a line requesting more than the listed quantity; when the
first failing line is a missing listing the error is ItemUnavailable, when
it is an overdraw the error is InsufficientStock; and when every line
passes but the accumulated total exceeds the asserted balance the error is
InsufficientFunds, again with the store unchanged. -/
theorem handle_buy_validate_phase (user : UserClaims) (now : Int) (s : ServerState)
    (data : BuyRequest) :
    (∀ (s' : ServerState) (e : BuyError),
        handle_buy user now s data = (s', .error e) → s' = s) ∧
    ((∃ l ∈ data.items, findListing s.for_sale_items l = none) →
        ∃ e, (handle_buy user now s data).2 = .error e) ∧
    ((∃ l ∈ data.items, ∃ it, findListing s.for_sale_items l = some it ∧
          it.quantity < l.quantity) →
        ∃ e, (handle_buy user now s data).2 = .error e) ∧
    (∀ (pre : List BuyItemRequest) (line : BuyItemRequest) (rest : List BuyItemRequest),
        data.items = pre ++ line :: rest →
        (∀ l ∈ pre, ∃ it, findListing s.for_sale_items l = some it ∧
            l.quantity ≤ it.quantity) →
        findListing s.for_sale_items line = none →
        handle_buy user now s data = (s, .error .itemUnavailable)) ∧
    (∀ (pre : List BuyItemRequest) (line : BuyItemRequest) (rest : List BuyItemRequest),
        data.items = pre ++ line :: rest →
        (∀ l ∈ pre, ∃ it, findListing s.for_sale_items l = some it ∧
            l.quantity ≤ it.quantity) →
        (∃ it, findListing s.for_sale_items line = some it ∧ it.quantity < line.quantity) →
        handle_buy user now s data = (s, .error .insufficientStock)) ∧
    (∀ total : Int, validateLoop s.for_sale_items 0 data.items = .ok total →
        data.client_silver < total →
        handle_buy user now s data = (s, .error .insufficientFunds)) := by
  refine ⟨?_, ?_, ?_, ?_, ?_, ?_⟩
  · intro s' e h
    unfold handle_buy at h
    split at h
    · rw [Prod.ext_iff] at h
      exact h.1.symm
    · split at h
      · rw [Prod.ext_iff] at h
        exact h.1.symm
      · dsimp only at h
        rw [Prod.ext_iff] at h
        exact absurd h.2 (by simp)
  · rintro ⟨l, hl, hnone⟩
    cases hv : validateLoop s.for_sale_items 0 data.items with
    | error e => exact ⟨e, by rw [handle_buy_of_validate_error user now s data e hv]⟩
    | ok total =>
      obtain ⟨it, hit, _⟩ := validateLoop_ok_sound _ _ _ _ hv l hl
      rw [hnone] at hit
      exact absurd hit (by simp)
  · rintro ⟨l, hl, it, hit, hlt⟩
    cases hv : validateLoop s.for_sale_items 0 data.items with
    | error e => exact ⟨e, by rw [handle_buy_of_validate_error user now s data e hv]⟩
    | ok total =>
      obtain ⟨it2, hit2, hle⟩ := validateLoop_ok_sound _ _ _ _ hv l hl
      rw [hit] at hit2
      rw [← Option.some.inj hit2] at hle
      exact absurd hlt (not_lt.mpr hle)
  · intro pre line rest hitems hfine hnone
    obtain ⟨acc2, hacc⟩ := validateLoop_append_ok s.for_sale_items pre 0 (line :: rest) hfine
    refine handle_buy_of_validate_error user now s data _ ?_
    rw [hitems, hacc, validateLoop_cons, hnone]
  · rintro pre line rest hitems hfine ⟨it, hit, hlt⟩
    obtain ⟨acc2, hacc⟩ := validateLoop_append_ok s.for_sale_items pre 0 (line :: rest) hfine
    refine handle_buy_of_validate_error user now s data _ ?_
    rw [hitems, hacc, validateLoop_cons, hit]
    dsimp only
    rw [if_pos hlt]
  · intro total hv hlt
    unfold handle_buy
    rw [hv]
    dsimp only
    rw [if_pos hlt]

/-- Witness for C5 at concrete inputs over the one-listing market: a line
naming an absent listing is rejected with ItemUnavailable, a line asking
for 9 of the 5 in stock with InsufficientStock, and a batch costing 30
against an asserted balance of 10 with InsufficientFunds — the store each
time returned exactly as it was. -/
theorem handle_buy_validate_phase_witness :
    handle_buy exBuyer 9 exMarket1 { items := [⟨"Gold", 1, "Bob"⟩], client_silver := 100 }
      = (exMarket1, .error .itemUnavailable) ∧
    handle_buy exBuyer 9 exMarket1 { items := [⟨"Steel", 9, "Bob"⟩], client_silver := 100 }
      = (exMarket1, .error .insufficientStock) ∧
    handle_buy exBuyer 9 exMarket1 { items := [⟨"Steel", 3, "Bob"⟩], client_silver := 10 }
      = (exMarket1, .error .insufficientFunds) :=
  ⟨(handle_buy_validate_phase exBuyer 9 exMarket1
        { items := [⟨"Gold", 1, "Bob"⟩], client_silver := 100 }).2.2.2.1
      [] ⟨"Gold", 1, "Bob"⟩ [] rfl (by simp) (by rfl),
    (handle_buy_validate_phase exBuyer 9 exMarket1
        { items := [⟨"Steel", 9, "Bob"⟩], client_silver := 100 }).2.2.2.2.1
      [] ⟨"Steel", 9, "Bob"⟩ [] rfl (by simp) ⟨exItemA, by rfl, by decide⟩,
    (handle_buy_validate_phase exBuyer 9 exMarket1
        { items := [⟨"Steel", 3, "Bob"⟩], client_silver := 10 }).2.2.2.2.2
      30 (by rfl) (by decide)⟩

/-- Deleting the n-th p-matching element erases exactly index n from the
p-filtered view. -/
theorem filter_removeNthMatching {α : Type} (p : α → Bool) :
    ∀ (n : Nat) (l : List α),
      (removeNthMatching p n l).filter p = (l.filter p).eraseIdx n := by
  intro n l
  induction l generalizing n with
  | nil => simp [removeNthMatching]
  | cons a tl ih =>
    rw [removeNthMatching]
    by_cases hpa : p a
    · rw [if_pos hpa]
      by_cases hn : n = 0
      · subst hn
        rw [if_pos rfl]
        simp [List.filter_cons, hpa]
      · rw [if_neg hn]
        obtain ⟨m, rfl⟩ := Nat.exists_eq_succ_of_ne_zero hn
        simp only [List.filter_cons, hpa, if_true, List.eraseIdx_cons_succ]
        rw [Nat.succ_sub_one]
        rw [ih m]
    · rw [if_neg hpa]
      simp only [List.filter_cons, hpa, if_false]
      exact ih n

/-- Deleting the n-th p-matching element leaves the non-matching elements
untouched. -/
theorem filter_not_removeNthMatching {α : Type} (p : α → Bool) :
    ∀ (n : Nat) (l : List α),
      (removeNthMatching p n l).filter (fun x => !p x)
        = l.filter (fun x => !p x) := by
  intro n l
  induction l generalizing n with
  | nil => simp [removeNthMatching]
  | cons a tl ih =>
    rw [removeNthMatching]
    by_cases hpa : p a
    · rw [if_pos hpa]
      by_cases hn : n = 0
      · subst hn
        rw [if_pos rfl]
        simp [List.filter_cons, hpa]
      · rw [if_neg hn]
        simp only [List.filter_cons, hpa, Bool.not_true, if_false]
        exact ih (n - 1)
    · rw [if_neg hpa]
      simp only [List.filter_cons, hpa, Bool.not_false, if_true]
      rw [ih n]

/-- C9 amended: for a nonnegative index, remove_item fails with
InvalidIndex exactly when the index is at least the number of Listings the
caller owns, and otherwise deletes exactly the Listing at that position in
the retrieval order of the view of the owner — erasing index n of the
filtered view and leaving all Listings of every other seller untouched.
(A negative index escapes the bound check and reaches Python negative
indexing instead: see the counterexample.) -/
theorem remove_item_nonneg_spec (s : ServerState) (sid : String) (i : Int)
    (hi : 0 ≤ i) :
    (((s.for_sale_items.filter (fun it => decide (it.seller_steam_id = sid))).length : Int) ≤ i →
        remove_item s sid i = (s, .error .invalidIndex)) ∧
    (i < ((s.for_sale_items.filter (fun it => decide (it.seller_steam_id = sid))).length : Int) →
        ∃ item,
          (s.for_sale_items.filter (fun it => decide (it.seller_steam_id = sid))).get? i.toNat
              = some item ∧
          remove_item s sid i =
            ({ s with for_sale_items :=
                (removeNthMatching (fun it => decide (it.seller_steam_id = sid)) i.toNat
                  s.for_sale_items) }, .ok item)) ∧
    (∀ (n : Nat) (l : List ForSaleItem),
        (removeNthMatching (fun it => decide (it.seller_steam_id = sid)) n l).filter
            (fun it => decide (it.seller_steam_id = sid))
          = (l.filter (fun it => decide (it.seller_steam_id = sid))).eraseIdx n ∧
        (removeNthMatching (fun it => decide (it.seller_steam_id = sid)) n l).filter
            (fun it => !decide (it.seller_steam_id = sid))
          = l.filter (fun it => !decide (it.seller_steam_id = sid))) := by
  refine ⟨?_, ?_, ?_⟩
  · intro hle
    unfold remove_item
    dsimp only
    rw [if_pos hle]
  · intro hlt
    unfold remove_item
    dsimp only
    rw [if_neg (not_le.mpr hlt)]
    have hlen : i.toNat <
        (s.for_sale_items.filter (fun it => decide (it.seller_steam_id = sid))).length := by
      omega
    have hpy : pyIdx
        (s.for_sale_items.filter (fun it => decide (it.seller_steam_id = sid))).length i
          = some i.toNat := by
      unfold pyIdx
      rw [if_pos hi, if_pos hlt]
    rw [hpy]
    dsimp only
    have hget := List.get?_eq_get hlen
    rw [hget]
    exact ⟨_, rfl, rfl⟩
  · intro n l
    exact ⟨filter_removeNthMatching _ n l, filter_not_removeNthMatching _ n l⟩

/-- Witness for C9 at a concrete input: with seller B1 owning the Steel and
the Wood listing, index 1 deletes exactly the Wood listing and index 2 is
rejected with InvalidIndex. -/
theorem remove_item_nonneg_spec_witness :
    (((exMarket2.for_sale_items.filter
        (fun it => decide (it.seller_steam_id = "B1"))).length : Int) ≤ 1 →
        remove_item exMarket2 "B1" 1 = (exMarket2, .error .invalidIndex)) ∧
    ((1 : Int) < ((exMarket2.for_sale_items.filter
        (fun it => decide (it.seller_steam_id = "B1"))).length : Int) →
        ∃ item,
          (exMarket2.for_sale_items.filter
              (fun it => decide (it.seller_steam_id = "B1"))).get? (1 : Int).toNat
            = some item ∧
          remove_item exMarket2 "B1" 1 =
            ({ exMarket2 with for_sale_items :=
                (removeNthMatching (fun it => decide (it.seller_steam_id = "B1"))
                  (1 : Int).toNat exMarket2.for_sale_items) }, .ok item)) ∧
    (∀ (n : Nat) (l : List ForSaleItem),
        (removeNthMatching (fun it => decide (it.seller_steam_id = "B1")) n l).filter
            (fun it => decide (it.seller_steam_id = "B1"))
          = (l.filter (fun it => decide (it.seller_steam_id = "B1"))).eraseIdx n ∧
        (removeNthMatching (fun it => decide (it.seller_steam_id = "B1")) n l).filter
            (fun it => !decide (it.seller_steam_id = "B1"))
          = l.filter (fun it => !decide (it.seller_steam_id = "B1"))) :=
  remove_item_nonneg_spec exMarket2 "B1" 1 (by decide)

/-- C9 counterexample: the index -1 is not the position of any of the two
listings of seller B1, so by the claim it should fail with InvalidIndex;
instead the bound check item_index >= len passes it through and Python
negative indexing deletes the last listing: the call succeeds and removes
the Wood listing. -/
theorem remove_item_negative_index_deletes :
    remove_item exMarket2 "B1" (-1)
      = ({ exMarket2 with for_sale_items := [exItemA] }, .ok exItemB) := by
  rfl

end MTN
